import Mathlib

/-
Shallow embedding of the subtitle-extension core (session orchestration and
chunk-gating pipeline) for verification of the specification claims.

Source files embedded:
  - src/utils/audioProcessor.ts  (AudioProcessor, AudioChunkBuffer)
  - src/config.ts                (AUDIO_CONFIG, DEFAULT_CONFIG)
  - src/services/apiService.ts   (ApiService.makeRequest dedup table,
                                  ApiService.retryRequest)
  - src/background.ts            (SubtitleService: startAudioCapture,
                                  handleAudioChunk, processAudioChunkRealTime)

Conventions: JavaScript numbers used as timestamps and sizes become Nat;
audio sample amplitudes become Rat; promises become explicit step functions
over a coordinator state; thrown exceptions become Except or explicit
outcome records.  JavaScript string-or-undefined values become Option String,
and the JavaScript truthiness test on strings (empty string is falsy) is
made explicit in jsOr.
-/

namespace SubtitleExt

/-- AUDIO_CONFIG.PROCESSING_INTERVAL from config.ts: 500 ms. -/
def PROCESSING_INTERVAL : Nat := 500

/-- AUDIO_CONFIG.SILENCE_THRESHOLD from config.ts: 0.01. -/
def SILENCE_THRESHOLD : ℚ := 1 / 100

/-- DEFAULT_CONFIG.requestTimeout from config.ts: 15000 ms. -/
def defaultRequestTimeout : Nat := 15000

/-- DEFAULT_CONFIG.maxRetries from config.ts: 3. -/
def defaultMaxRetries : Nat := 3

/-- The JavaScript idiom `x || d` on a string-or-undefined value x:
the default d is used when x is undefined or the empty string. -/
def jsOr (x : Option String) (d : String) : String :=
  match x with
  | none => d
  | some s => if s = "" then d else s

/-- An audio chunk (a Blob in the source).  The decoded field is the result
of AudioContext.decodeAudioData on the chunk payload: none models a decode
failure, some gives the channel-0 sample list. -/
structure Chunk where
  size : Nat
  decoded : Option (List ℚ)
deriving DecidableEq

/-- AudioChunkBuffer from audioProcessor.ts: a list of retained chunks and
the capacity maxChunks fixed at construction. -/
structure AudioChunkBuffer (α : Type) where
  chunks : List α
  maxChunks : Nat
deriving DecidableEq

/-- The default value of the constructor argument maxChunks in
`constructor(maxChunks = 10)` of AudioChunkBuffer. -/
def AudioChunkBuffer.defaultMaxChunks : Nat := 10

/-- AudioChunkBuffer construction with an explicit capacity. -/
def AudioChunkBuffer.new (α : Type) (maxChunks : Nat) : AudioChunkBuffer α :=
  ⟨[], maxChunks⟩

/-- AudioChunkBuffer construction with the argument omitted. -/
def AudioChunkBuffer.newDefault (α : Type) : AudioChunkBuffer α :=
  AudioChunkBuffer.new α AudioChunkBuffer.defaultMaxChunks

/-- AudioChunkBuffer.addChunk: push the chunk, then if length exceeds
maxChunks shift off the oldest entry. -/
def AudioChunkBuffer.addChunk {α : Type} (b : AudioChunkBuffer α) (chunk : α) :
    AudioChunkBuffer α :=
  let cs := b.chunks ++ [chunk]
  if cs.length > b.maxChunks then
    { b with chunks := cs.tail }
  else
    { b with chunks := cs }

/-- Mean absolute sample amplitude, as computed in detectSpeech:
sum of absolute values divided by the sample count.  Division by zero in
Rat yields 0, which agrees with the JavaScript NaN comparison NaN > t
being false for an empty sample list. -/
def meanAmplitude (samples : List ℚ) : ℚ :=
  (samples.map (fun s => |s|)).sum / samples.length

/-- AudioProcessor.detectSpeech from audioProcessor.ts.  hasContext models
audioContext being non-null; decoded none models decodeAudioData throwing.
Returns true when detection cannot run (fails open), otherwise compares the
mean absolute amplitude against SILENCE_THRESHOLD. -/
def detectSpeech (hasContext : Bool) (decoded : Option (List ℚ)) : Bool :=
  if !hasContext then
    true
  else
    match decoded with
    | none => true
    | some samples => decide (meanAmplitude samples > SILENCE_THRESHOLD)

/-- AudioProcessor.handleAudioChunk from audioProcessor.ts: the callback is
invoked only when a callback is registered, the blob is non-empty, and the
blob size strictly exceeds 1000 bytes.  The returned Bool is true exactly
when the chunk is delivered to the callback. -/
def AudioProcessor.handleAudioChunk (hasCallback : Bool) (size : Nat) : Bool :=
  if hasCallback ∧ size > 0 then
    if size > 1000 then true else false
  else
    false

/-- The dataavailable listener installed by AudioProcessor.startProcessing:
it forwards the event blob to handleAudioChunk only when the blob size is
positive. -/
def AudioProcessor.dataAvailable (hasCallback : Bool) (size : Nat) : Bool :=
  if size > 0 then AudioProcessor.handleAudioChunk hasCallback size else false

/-- Trace of one call to ApiService.retryRequest: the settled result, the
number of times the request function was invoked, and the list of backoff
delays awaited between attempts, in order. -/
structure RetryTrace (E A : Type) where
  result : Except E A
  invocations : Nat
  delays : List Nat

/-- The attempt loop of ApiService.retryRequest.  attempt is the current
0-indexed attempt number, remaining the number of attempts still allowed
after this one.  On failure at the final attempt the loop breaks and the
last error is rethrown; otherwise the loop waits 2 ^ attempt * 1000 ms and
tries again. -/
def retryGo {E A : Type} (fn : Nat → Except E A) (attempt : Nat) :
    Nat → RetryTrace E A
  | 0 =>
    match fn attempt with
    | .ok a => ⟨.ok a, 1, []⟩
    | .error e => ⟨.error e, 1, []⟩
  | remaining + 1 =>
    match fn attempt with
    | .ok a => ⟨.ok a, 1, []⟩
    | .error _ =>
      let rest := retryGo fn (attempt + 1) remaining
      ⟨rest.result, rest.invocations + 1, 2 ^ attempt * 1000 :: rest.delays⟩

/-- ApiService.retryRequest: run the attempt loop for attempts
0 .. maxRetries.  fn gives the outcome of each attempt by index. -/
def retryRequest {E A : Type} (fn : Nat → Except E A) (maxRetries : Nat) :
    RetryTrace E A :=
  retryGo fn 0 maxRetries

/-- The dedup key built at the top of ApiService.makeRequest:
method ++ ":" ++ url ++ ":" ++ body.toString().slice(0, 100), the last
part embedded as the first 100 characters of the string form of the body
(empty when the body is absent).  A FormData body stringifies to the
constant text [object FormData]; a string body stringifies to itself. -/
def requestKey (method url : String) (body : Option String) : String :=
  method ++ ":" ++ url ++ ":" ++
    (match body with
     | some b => String.mk (b.data.take 100)
     | none => "")

/-- Association-list lookup keyed by decidable equality. -/
def mapFind {κ β : Type} [DecidableEq κ] (m : List (κ × β)) (k : κ) :
    Option β :=
  match m with
  | [] => none
  | (k₂, v) :: rest => if k = k₂ then some v else mapFind rest k

/-- Association-list insert-or-replace, modelling Map.set. -/
def mapSet {κ β : Type} [DecidableEq κ] (m : List (κ × β)) (k : κ) (v : β) :
    List (κ × β) :=
  match m with
  | [] => [(k, v)]
  | (k₂, v₂) :: rest =>
    if k = k₂ then (k, v) :: rest else (k₂, v₂) :: mapSet rest k v

/-- Association-list removal, modelling Map.delete. -/
def mapDelete {κ β : Type} [DecidableEq κ] (m : List (κ × β)) (k : κ) :
    List (κ × β) :=
  match m with
  | [] => []
  | (k₂, v₂) :: rest =>
    if k = k₂ then mapDelete rest k else (k₂, v₂) :: mapDelete rest k

/-- State of the request coordinator in ApiService.  requestQueue is the
pending-request table mapping dedup keys to the identity of their shared
in-flight promise.  nextPromise is a fresh-identity counter.  issued records
every network call ever started, as key-promise pairs; settled records every
promise that has settled together with its outcome (true = fulfilled,
false = rejected).  issued and settled are history variables used to state
the invariants; the source only materialises requestQueue. -/
structure Coordinator where
  requestQueue : List (String × Nat)
  nextPromise : Nat
  issued : List (String × Nat)
  settled : List (Nat × Bool)
deriving DecidableEq

/-- The coordinator with an empty pending-request table. -/
def emptyCoordinator : Coordinator := ⟨[], 0, [], []⟩

/-- Result handed to a caller of makeRequest at arrival time: the possibly
updated coordinator, the identity of the promise the caller awaits, and
whether this arrival issued a new network call. -/
structure ArriveResult where
  coord : Coordinator
  promiseId : Nat
  issuedCall : Bool
deriving DecidableEq

/-- The deduplication step at the top of ApiService.makeRequest: if the key
is already in the pending table the caller is handed the existing promise
and no network call starts; otherwise a fresh promise is stored under the
key and a network call is issued for it. -/
def Coordinator.arrive (c : Coordinator) (key : String) : ArriveResult :=
  match mapFind c.requestQueue key with
  | some pid => ⟨c, pid, false⟩
  | none =>
    ⟨{ requestQueue := mapSet c.requestQueue key c.nextPromise,
       nextPromise := c.nextPromise + 1,
       issued := c.issued ++ [(key, c.nextPromise)],
       settled := c.settled }, c.nextPromise, true⟩

/-- Settlement of the in-flight call for a key, with either outcome: both
the try branch and the catch branch of makeRequest delete the table entry
before returning or rethrowing.  If no call is pending for the key the step
is a no-op. -/
def Coordinator.settle (c : Coordinator) (key : String) (outcome : Bool) :
    Coordinator :=
  match mapFind c.requestQueue key with
  | some pid =>
    { c with
      requestQueue := mapDelete c.requestQueue key,
      settled := c.settled ++ [(pid, outcome)] }
  | none => c

/-- One event in a coordinator history: a caller arriving with a dedup key,
or the pending call for a key settling with an outcome. -/
inductive CoordEvent where
  | arrive (key : String)
  | settle (key : String) (outcome : Bool)
deriving DecidableEq

/-- Event-step function over coordinator states. -/
def Coordinator.step (c : Coordinator) : CoordEvent → Coordinator
  | .arrive k => (c.arrive k).coord
  | .settle k outcome => c.settle k outcome

/-- A network call is outstanding when it was issued and its promise has
not settled. -/
def Coordinator.outstanding (c : Coordinator) (key : String) (pid : Nat) :
    Prop :=
  (key, pid) ∈ c.issued ∧ pid ∉ c.settled.map Prod.fst

/-- Coordinator state invariant: the pending table holds exactly the
outstanding network calls, promise identities are below the freshness
counter, settled identities are below the freshness counter, and no promise
is pending under two different keys. -/
def CoordInv (c : Coordinator) : Prop :=
  (∀ key pid, c.outstanding key pid ↔ mapFind c.requestQueue key = some pid) ∧
  (∀ key pid, (key, pid) ∈ c.issued → pid < c.nextPromise) ∧
  (∀ pid, pid ∈ c.settled.map Prod.fst → pid < c.nextPromise) ∧
  (∀ k₁ k₂ pid, mapFind c.requestQueue k₁ = some pid →
    mapFind c.requestQueue k₂ = some pid → k₁ = k₂)

/-- A per-tab capture session (interface ActiveSession in background.ts).
hasAudioContext models the audioContext field of the session AudioProcessor
being non-null (it is constructed in the AudioProcessor constructor). -/
structure ActiveSession where
  isProcessing : Bool
  lastProcessedTime : Nat
  audioBuffer : AudioChunkBuffer Chunk
  hasAudioContext : Bool
deriving DecidableEq

/-- The two backend dispatch paths chosen in processAudioChunkRealTime. -/
inductive DispatchPath where
  | transcribe
  | translateAudio
deriving DecidableEq

/-- The fields of a whisper backend response consumed by the real-time
loop.  detected_language none models the field being absent. -/
structure WhisperResponse where
  text : String
  detected_language : Option String
deriving DecidableEq

/-- The source and target language values read from chrome.storage.sync in
processAudioChunkRealTime; none models a missing key. -/
structure StoredSettings where
  sourceLanguage : Option String
  targetLanguage : Option String
deriving DecidableEq

/-- A message sent to the content script (the display sink). -/
inductive SinkMessage where
  | displaySubtitle (text : String) (language : String)
  | captureStarted (streamId : Nat)
  | captureStopped
deriving DecidableEq

/-- Leading- and trailing-whitespace removal on a character list. -/
def trimChars (cs : List Char) : List Char :=
  ((cs.dropWhile Char.isWhitespace).reverse.dropWhile Char.isWhitespace).reverse

/-- The JavaScript String.prototype.trim call on the recognized text,
embedded structurally so that it evaluates. -/
def jsTrim (s : String) : String := String.mk (trimChars s.data)

/-- The dispatch-path choice in processAudioChunkRealTime: transcribe only
when source equals target or the target is the literal auto, otherwise
translate the audio to the target language. -/
def chooseDispatchPath (sourceLanguage targetLanguage : String) :
    DispatchPath :=
  if sourceLanguage = targetLanguage ∨ targetLanguage = "auto" then
    .transcribe
  else
    .translateAudio

/-- Observable outcome of one call to processAudioChunkRealTime: which
backend path was dispatched (none when no call was made), the messages sent
to the display sink, and whether an error escaped the function. -/
structure ProcessOutcome where
  dispatched : Option DispatchPath
  sinkMessages : List SinkMessage
  raisedError : Bool
deriving DecidableEq

/-- SubtitleService.processAudioChunkRealTime from background.ts.  backend
gives the settled result of the chosen backend call (ok = fulfilled
response, error = any thrown failure, including the 15000 ms timeout).
The catch block logs and deliberately sends nothing to the sink, so the
function never raises and reports errors to nobody. -/
def processAudioChunkRealTime {E : Type} (settings : StoredSettings)
    (backend : DispatchPath → Except E WhisperResponse) : ProcessOutcome :=
  { dispatched :=
      some (chooseDispatchPath (jsOr settings.sourceLanguage "auto")
        (jsOr settings.targetLanguage "en")),
    sinkMessages :=
      match backend (chooseDispatchPath (jsOr settings.sourceLanguage "auto")
          (jsOr settings.targetLanguage "en")) with
      | .error _ => []
      | .ok result =>
        if result.text ≠ "" ∧ jsTrim result.text ≠ "" then
          [.displaySubtitle result.text
            (jsOr result.detected_language (jsOr settings.sourceLanguage "auto"))]
        else
          [],
    raisedError := false }

/-- Observable outcome of one call to SubtitleService.handleAudioChunk:
the session state afterwards plus the ProcessOutcome fields. -/
structure ChunkOutcome where
  session : ActiveSession
  dispatched : Option DispatchPath
  sinkMessages : List SinkMessage
  raisedError : Bool
deriving DecidableEq

/-- SubtitleService.handleAudioChunk from background.ts.  The two early
returns drop the chunk before anything is buffered.  On the processing path
the source sets the processing flag and the timestamp, buffers the chunk,
runs the speech gate, dispatches, and clears the flag in a finally block on
every exit; the embedding is one synchronous function, so the outcome
session records the state after that finally block, with the flag already
cleared on each processing exit path. -/
def handleAudioChunk {E : Type} (session : ActiveSession) (chunk : Chunk)
    (now : Nat) (settings : StoredSettings)
    (backend : DispatchPath → Except E WhisperResponse) : ChunkOutcome :=
  if session.isProcessing then
    ⟨session, none, [], false⟩
  else if now - session.lastProcessedTime < PROCESSING_INTERVAL then
    ⟨session, none, [], false⟩
  else if detectSpeech session.hasAudioContext chunk.decoded = false then
    ⟨{ session with
        isProcessing := false,
        lastProcessedTime := now,
        audioBuffer := session.audioBuffer.addChunk chunk }, none, [], false⟩
  else
    ⟨{ session with
        isProcessing := false,
        lastProcessedTime := now,
        audioBuffer := session.audioBuffer.addChunk chunk },
     (processAudioChunkRealTime settings backend).dispatched,
     (processAudioChunkRealTime settings backend).sinkMessages,
     (processAudioChunkRealTime settings backend).raisedError⟩

/-- The session object built in startAudioCapture: fresh five-chunk buffer,
processing flag false, lastProcessedTime = Date.now() at creation. -/
def mkActiveSession (now : Nat) : ActiveSession :=
  ⟨false, now, AudioChunkBuffer.new Chunk 5, true⟩

/-- The SubtitleService state relevant to session lifecycle: the
activeSessions map keyed by tab id. -/
structure SubtitleService where
  activeSessions : List (Nat × ActiveSession)
deriving DecidableEq

/-- The CaptureResponse value returned by startAudioCapture. -/
inductive CaptureResponse where
  | success (streamId : Nat)
  | failure (error : String)
deriving DecidableEq

/-- True exactly on the success constructor. -/
def CaptureResponse.isSuccess : CaptureResponse → Bool
  | .success _ => true
  | .failure _ => false

/-- The error string returned when a session already exists for the tab. -/
def alreadyCapturingMsg : String := "Already capturing audio for this tab"

/-- The error string returned when the health probe fails. -/
def backendUnavailableMsg : String :=
  "Cannot connect to whisper-service. Please ensure it is running."

/-- Result of one startAudioCapture call: the service state afterwards, the
response to the caller, and whether a capture stream was acquired. -/
structure StartResult where
  service : SubtitleService
  response : CaptureResponse
  streamAcquired : Bool
deriving DecidableEq

/-- Environment of one startAudioCapture call: whether the health probe
succeeds, the stream handed back by chrome.tabCapture (none models the
capture error or null-stream cases), and the clock value. -/
structure StartEnv where
  healthOk : Bool
  stream : Option Nat
  now : Nat
deriving DecidableEq

/-- SubtitleService.startAudioCapture from background.ts: reject when a
session exists for the tab, then probe the backend, then request the tab
capture stream, and only then construct and register the session and
notify the sink. -/
def SubtitleService.startAudioCapture (svc : SubtitleService) (tabId : Nat)
    (env : StartEnv) : StartResult :=
  if (mapFind svc.activeSessions tabId).isSome then
    ⟨svc, .failure alreadyCapturingMsg, false⟩
  else if !env.healthOk then
    ⟨svc, .failure backendUnavailableMsg, false⟩
  else
    match env.stream with
    | none => ⟨svc, .failure "No stream received", false⟩
    | some sid =>
      ⟨⟨mapSet svc.activeSessions tabId (mkActiveSession env.now)⟩,
       .success sid, true⟩

/-- Run a sequence of startAudioCapture calls for one tab with no
intervening stopAudioCapture, collecting each per-call result (whose
service field is the state after that call). -/
def runStarts (svc : SubtitleService) (tabId : Nat) :
    List StartEnv → List StartResult
  | [] => []
  | env :: rest =>
    let r := svc.startAudioCapture tabId env
    r :: runStarts r.service tabId rest

/-- Concrete attempt function used to witness the retry theorem: the first
attempt fails, every later attempt succeeds with 7. -/
def retryDemoFn : Nat → Except String Nat :=
  fun j => if j = 0 then .error "boom" else .ok 7

/-- Concrete coordinator state used to witness the pending-table theorem:
one network call issued and pending for key k under promise 0. -/
def demoCoord : Coordinator := ⟨[("k", 0)], 1, [("k", 0)], []⟩

/-- A 101-character request body: one hundred a characters followed by x. -/
def longBodyA : String := String.mk (List.replicate 100 'a') ++ "x"

/-- A 101-character request body: one hundred a characters followed by y,
differing from longBodyA only at index 100. -/
def longBodyB : String := String.mk (List.replicate 100 'a') ++ "y"

section MapLemmas

variable {κ β : Type} [DecidableEq κ]

theorem mapFind_mapSet_self (m : List (κ × β)) (k : κ) (v : β) :
    mapFind (mapSet m k v) k = some v := by
  induction m with
  | nil => simp [mapSet, mapFind]
  | cons hd tl ih =>
    by_cases hk : k = hd.1
    · simp [mapSet, mapFind, hk]
    · simpa [mapSet, mapFind, hk] using ih

theorem mapFind_mapSet_ne (m : List (κ × β)) (k k₂ : κ) (v : β)
    (h : k₂ ≠ k) : mapFind (mapSet m k v) k₂ = mapFind m k₂ := by
  induction m with
  | nil => simp [mapSet, mapFind, h]
  | cons hd tl ih =>
    by_cases hk : k = hd.1
    · subst hk
      simp [mapSet, mapFind, h]
    · by_cases hk₂ : k₂ = hd.1
      · simp [mapSet, mapFind, hk, hk₂]
      · simpa [mapSet, mapFind, hk, hk₂] using ih

theorem mapFind_mapDelete_self (m : List (κ × β)) (k : κ) :
    mapFind (mapDelete m k) k = none := by
  induction m with
  | nil => simp [mapDelete, mapFind]
  | cons hd tl ih =>
    by_cases hk : k = hd.1
    · simpa [mapDelete, hk] using ih
    · simpa [mapDelete, mapFind, hk] using ih

theorem mapFind_mapDelete_ne (m : List (κ × β)) (k k₂ : κ) (h : k₂ ≠ k) :
    mapFind (mapDelete m k) k₂ = mapFind m k₂ := by
  induction m with
  | nil => simp [mapDelete, mapFind]
  | cons hd tl ih =>
    by_cases hk : k = hd.1
    · subst hk
      simp [mapDelete, mapFind, h, ih]
    · by_cases hk₂ : k₂ = hd.1
      · simp [mapDelete, mapFind, hk, hk₂]
      · simpa [mapDelete, mapFind, hk, hk₂] using ih

end MapLemmas

section BufferLemmas

variable {α : Type}

theorem addChunk_maxChunks (b : AudioChunkBuffer α) (c : α) :
    (b.addChunk c).maxChunks = b.maxChunks := by
  simp only [AudioChunkBuffer.addChunk]
  split <;> rfl

theorem addChunk_length_le (b : AudioChunkBuffer α) (c : α)
    (h : b.chunks.length ≤ b.maxChunks) :
    (b.addChunk c).chunks.length ≤ b.maxChunks := by
  simp only [AudioChunkBuffer.addChunk]
  split
  · simp only [List.length_tail, List.length_append, List.length_singleton]
    omega
  · rename_i hgt
    simp only [List.length_append, List.length_singleton] at hgt ⊢
    omega

theorem foldl_addChunk_inv (cs : List α) (b : AudioChunkBuffer α)
    (h : b.chunks.length ≤ b.maxChunks) :
    (cs.foldl AudioChunkBuffer.addChunk b).chunks.length ≤ b.maxChunks ∧
    (cs.foldl AudioChunkBuffer.addChunk b).maxChunks = b.maxChunks := by
  induction cs generalizing b with
  | nil => exact ⟨h, rfl⟩
  | cons c rest ih =>
    have hmax := addChunk_maxChunks b c
    have hlen : (b.addChunk c).chunks.length ≤ (b.addChunk c).maxChunks := by
      rw [hmax]
      exact addChunk_length_le b c h
    have h₂ := ih (b.addChunk c) hlen
    simp only [List.foldl_cons]
    exact ⟨h₂.1.trans (le_of_eq hmax), h₂.2.trans hmax⟩

end BufferLemmas

/-- C9 counterexample: the claim says the Chunk Buffer capacity defaults
to 5, but the constructor default argument is 10, so a buffer built with
the argument omitted has capacity 10, not 5. -/
theorem c9_default_capacity_cex :
    (AudioChunkBuffer.newDefault Nat).maxChunks = 10 ∧ (10 : Nat) ≠ 5 := by
  decide

/-- C9 (amended): the Chunk Buffer capacity is fixed at construction; the
constructor default is 10 and the session manager constructs the session
buffer with explicit capacity 5.  addChunk preserves the capacity, never
lets the length exceed the capacity, appends when under capacity, and at
capacity evicts exactly the oldest retained chunk, preserving the insertion
order of the rest; any sequence of insertions into a fresh buffer keeps the
length at or below the capacity. -/
theorem c9_buffer_capacity_fifo {α : Type} (b : AudioChunkBuffer α) (c : α)
    (h : b.chunks.length ≤ b.maxChunks) :
    AudioChunkBuffer.defaultMaxChunks = 10 ∧
    (∀ now, (mkActiveSession now).audioBuffer.maxChunks = 5) ∧
    (b.addChunk c).maxChunks = b.maxChunks ∧
    (b.addChunk c).chunks.length ≤ b.maxChunks ∧
    (b.chunks.length < b.maxChunks → (b.addChunk c).chunks = b.chunks ++ [c]) ∧
    (∀ x xs, b.chunks = x :: xs → b.chunks.length = b.maxChunks →
      (b.addChunk c).chunks = xs ++ [c]) ∧
    (∀ cap : Nat, ∀ cs : List α,
      (cs.foldl AudioChunkBuffer.addChunk (AudioChunkBuffer.new α cap)).chunks.length ≤ cap) := by
  refine ⟨rfl, fun _ => rfl, addChunk_maxChunks b c, addChunk_length_le b c h,
    ?_, ?_, ?_⟩
  · intro hlt
    simp only [AudioChunkBuffer.addChunk]
    split
    · rename_i hgt
      simp only [List.length_append, List.length_singleton] at hgt
      omega
    · rfl
  · intro x xs hcons hfull
    simp only [AudioChunkBuffer.addChunk]
    split
    · simp [hcons]
    · rename_i hgt
      simp only [List.length_append, List.length_singleton] at hgt
      omega
  · intro cap cs
    exact (foldl_addChunk_inv cs (AudioChunkBuffer.new α cap) (by simp [AudioChunkBuffer.new])).1

/-- C9 witness: a concrete full three-chunk buffer evicts its oldest chunk
on insertion. -/
theorem c9_buffer_capacity_fifo_witness :
    ((⟨[10, 20, 30], 3⟩ : AudioChunkBuffer Nat).addChunk 40).chunks = [20, 30, 40] :=
  (c9_buffer_capacity_fifo (⟨[10, 20, 30], 3⟩ : AudioChunkBuffer Nat) 40
    (by decide)).2.2.2.2.2.1 10 [20, 30] rfl (by decide)

/-- C10: the AudioProcessor delivers a captured chunk to the registered
chunk callback exactly when a callback is registered and the chunk size
strictly exceeds 1000 bytes; in particular every non-empty chunk of at most
1000 bytes is silently discarded. -/
theorem c10_min_size_gate (hasCallback : Bool) (size : Nat) :
    (AudioProcessor.dataAvailable hasCallback size = true ↔
      hasCallback = true ∧ 1000 < size) ∧
    (0 < size → size ≤ 1000 →
      AudioProcessor.dataAvailable hasCallback size = false) := by
  constructor
  · cases hasCallback
    · simp [AudioProcessor.dataAvailable, AudioProcessor.handleAudioChunk]
    · simp [AudioProcessor.dataAvailable, AudioProcessor.handleAudioChunk]
      omega
  · intro hpos hle
    cases hasCallback
    · simp [AudioProcessor.dataAvailable, AudioProcessor.handleAudioChunk]
    · simp [AudioProcessor.dataAvailable, AudioProcessor.handleAudioChunk]
      omega

/-- C10 witness: a 900-byte chunk with a registered callback is discarded,
while a 1200-byte chunk is delivered. -/
theorem c10_min_size_gate_witness :
    AudioProcessor.dataAvailable true 900 = false ∧
    AudioProcessor.dataAvailable true 1200 = true :=
  ⟨(c10_min_size_gate true 900).2 (by decide) (by decide),
   (c10_min_size_gate true 1200).1.mpr ⟨rfl, by decide⟩⟩

/-- C5: for a successfully decoded chunk the speech gate accepts exactly
when the mean absolute amplitude strictly exceeds the 0.01 silence
threshold; on decode failure the gate fails open; and a session chunk whose
decoded mean amplitude is below the threshold is never dispatched to the
backend. -/
theorem c5_speech_gate {E : Type} (samples : List ℚ) (session : ActiveSession)
    (chunk : Chunk) (now : Nat) (settings : StoredSettings)
    (backend : DispatchPath → Except E WhisperResponse)
    (hctx : session.hasAudioContext = true)
    (hdec : chunk.decoded = some samples)
    (hlow : meanAmplitude samples < SILENCE_THRESHOLD) :
    (∀ s : List ℚ, detectSpeech true (some s) = true ↔
      SILENCE_THRESHOLD < meanAmplitude s) ∧
    detectSpeech true none = true ∧
    (handleAudioChunk session chunk now settings backend).dispatched = none := by
  refine ⟨fun s => by simp [detectSpeech], by simp [detectSpeech], ?_⟩
  have hgate : detectSpeech session.hasAudioContext chunk.decoded = false := by
    simp only [hctx, hdec, detectSpeech, Bool.not_true, Bool.false_eq_true,
      if_false, decide_eq_false_iff_not]
    exact fun hgt => absurd hlow (lt_asymm hgt)
  unfold handleAudioChunk
  split
  · rfl
  · split
    · rfl
    · simp [hgate]

/-- C5 witness: a decoded chunk of constant amplitude 1/200 is gated out
and not dispatched, a decode failure fails open, and amplitude 1/2 passes
the threshold comparison. -/
theorem c5_speech_gate_witness :
    (∀ s : List ℚ, detectSpeech true (some s) = true ↔
      SILENCE_THRESHOLD < meanAmplitude s) ∧
    detectSpeech true none = true ∧
    (handleAudioChunk (⟨false, 0, AudioChunkBuffer.new Chunk 5, true⟩ : ActiveSession)
      (⟨2000, some [1 / 200, 1 / 200]⟩ : Chunk) 600
      (⟨some "auto", some "en"⟩ : StoredSettings)
      (fun _ => (Except.error "down" : Except String WhisperResponse))).dispatched = none :=
  c5_speech_gate [1 / 200, 1 / 200]
    (⟨false, 0, AudioChunkBuffer.new Chunk 5, true⟩ : ActiveSession)
    (⟨2000, some [1 / 200, 1 / 200]⟩ : Chunk) 600
    (⟨some "auto", some "en"⟩ : StoredSettings)
    (fun _ => (Except.error "down" : Except String WhisperResponse))
    rfl rfl (by norm_num [meanAmplitude, SILENCE_THRESHOLD, abs_of_nonneg])

/-- C2 counterexample: a chunk arriving while the processing flag is true
is dropped without being appended to the Chunk Buffer: the buffer stays
empty, refuting the claim that the dropped chunk is appended. -/
theorem c2_drop_not_buffered_cex :
    (handleAudioChunk (⟨true, 0, AudioChunkBuffer.new Chunk 5, true⟩ : ActiveSession)
      (⟨2000, some [1 / 2]⟩ : Chunk) 1000
      (⟨some "auto", some "en"⟩ : StoredSettings)
      (fun _ => (Except.error "down" : Except String WhisperResponse))).session.audioBuffer.chunks
      = [] := by
  rfl

/-- C2 (amended): a chunk delivered while the processing flag is true, or
while less than the 500 ms processing interval has elapsed since the last
forwarded chunk, is dropped entirely: it is not appended to the Chunk
Buffer, the session state is unchanged, nothing is dispatched to the
backend, nothing is sent to the sink, and no error is raised. -/
theorem c2_drop_discards {E : Type} (session : ActiveSession) (chunk : Chunk)
    (now : Nat) (settings : StoredSettings)
    (backend : DispatchPath → Except E WhisperResponse)
    (h : session.isProcessing = true ∨
      now - session.lastProcessedTime < PROCESSING_INTERVAL) :
    handleAudioChunk session chunk now settings backend =
      ⟨session, none, [], false⟩ := by
  unfold handleAudioChunk
  rcases h with h | h
  · simp [h]
  · split
    · rfl
    · simp [h]

/-- C2 witness: a chunk arriving 200 ms after the last forwarded chunk is
dropped with the session unchanged. -/
theorem c2_drop_discards_witness :
    handleAudioChunk (⟨false, 0, AudioChunkBuffer.new Chunk 5, true⟩ : ActiveSession)
      (⟨2000, some [1 / 2]⟩ : Chunk) 200
      (⟨some "auto", some "en"⟩ : StoredSettings)
      (fun _ => (Except.error "down" : Except String WhisperResponse)) =
      ⟨⟨false, 0, AudioChunkBuffer.new Chunk 5, true⟩, none, [], false⟩ :=
  c2_drop_discards (⟨false, 0, AudioChunkBuffer.new Chunk 5, true⟩ : ActiveSession)
    (⟨2000, some [1 / 2]⟩ : Chunk) 200
    (⟨some "auto", some "en"⟩ : StoredSettings)
    (fun _ => (Except.error "down" : Except String WhisperResponse))
    (Or.inr (by decide))

section RetryLemmas

variable {E A : Type}

theorem retryGo_invocations_pos (fn : Nat → Except E A) (attempt remaining : Nat) :
    1 ≤ (retryGo fn attempt remaining).invocations := by
  cases remaining with
  | zero =>
    unfold retryGo
    cases fn attempt <;> simp
  | succ r =>
    unfold retryGo
    cases fn attempt <;> simp

theorem retryGo_invocations_le (fn : Nat → Except E A) (attempt remaining : Nat) :
    (retryGo fn attempt remaining).invocations ≤ remaining + 1 := by
  induction remaining generalizing attempt with
  | zero =>
    unfold retryGo
    cases fn attempt <;> simp
  | succ r ih =>
    unfold retryGo
    cases fn attempt with
    | ok a => simp
    | error e =>
      simp only
      have := ih (attempt + 1)
      omega

theorem retryGo_delays (fn : Nat → Except E A) (attempt remaining : Nat) :
    (retryGo fn attempt remaining).delays =
      (List.range ((retryGo fn attempt remaining).invocations - 1)).map
        (fun i => 2 ^ (attempt + i) * 1000) := by
  induction remaining generalizing attempt with
  | zero =>
    unfold retryGo
    cases fn attempt <;> simp
  | succ r ih =>
    unfold retryGo
    cases fn attempt with
    | ok a => simp
    | error e =>
      simp only [Nat.add_sub_cancel]
      have hpos := retryGo_invocations_pos fn (attempt + 1) r
      obtain ⟨k, hk⟩ : ∃ k, (retryGo fn (attempt + 1) r).invocations = k + 1 :=
        ⟨(retryGo fn (attempt + 1) r).invocations - 1, by omega⟩
      rw [ih (attempt + 1), hk]
      simp only [Nat.add_sub_cancel, List.range_succ_eq_map, List.map_cons,
        List.map_map]
      refine congrArg₂ _ (by ring_nf) ?_
      apply List.map_congr_left
      intro i _
      simp only [Function.comp_apply]
      have harg : attempt + 1 + i = attempt + i.succ := by omega
      rw [harg]

theorem retryGo_first_success (fn : Nat → Except E A) (i : Nat) (a : A) :
    ∀ attempt remaining, i ≤ remaining →
      (∀ j, j < i → ∃ e, fn (attempt + j) = .error e) →
      fn (attempt + i) = .ok a →
      (retryGo fn attempt remaining).result = .ok a ∧
      (retryGo fn attempt remaining).invocations = i + 1 := by
  induction i with
  | zero =>
    intro attempt remaining _ _ hok
    rw [Nat.add_zero] at hok
    cases remaining with
    | zero => unfold retryGo; rw [hok]; exact ⟨rfl, rfl⟩
    | succ r => unfold retryGo; rw [hok]; exact ⟨rfl, rfl⟩
  | succ i ih =>
    intro attempt remaining hle hfail hok
    obtain ⟨r, rfl⟩ : ∃ r, remaining = r + 1 :=
      ⟨remaining - 1, by omega⟩
    obtain ⟨e₀, he₀⟩ := hfail 0 (Nat.succ_pos i)
    rw [Nat.add_zero] at he₀
    unfold retryGo
    rw [he₀]
    have hrec := ih (attempt + 1) r (by omega)
      (fun j hj => by
        obtain ⟨e, he⟩ := hfail (j + 1) (by omega)
        exact ⟨e, by rw [← he]; ring_nf⟩)
      (by rw [← hok]; ring_nf)
    simp only
    exact ⟨hrec.1, by omega⟩

theorem retryGo_all_fail (fn : Nat → Except E A) (err : Nat → E) :
    ∀ remaining attempt, (∀ j, j ≤ remaining → fn (attempt + j) = .error (err (attempt + j))) →
      (retryGo fn attempt remaining).result = .error (err (attempt + remaining)) ∧
      (retryGo fn attempt remaining).invocations = remaining + 1 := by
  intro remaining
  induction remaining with
  | zero =>
    intro attempt hfail
    have h₀ := hfail 0 (Nat.le_refl 0)
    rw [Nat.add_zero] at h₀
    unfold retryGo
    rw [h₀]
    exact ⟨rfl, rfl⟩
  | succ r ih =>
    intro attempt hfail
    have h₀ := hfail 0 (Nat.zero_le _)
    rw [Nat.add_zero] at h₀
    unfold retryGo
    rw [h₀]
    have hrec := ih (attempt + 1)
      (fun j hj => by
        have h := hfail (j + 1) (by omega)
        have harg : attempt + 1 + j = attempt + (j + 1) := by omega
        rw [harg]
        exact h)
    simp only
    constructor
    · rw [hrec.1]
      have harg : attempt + 1 + r = attempt + (r + 1) := by omega
      rw [harg]
    · rw [hrec.2]

end RetryLemmas

/-- C3: retryRequest invokes the attempt function at most maxRetries + 1
times; the delays awaited between consecutive attempts are exactly
1000 ms * 2 ^ i for 0-indexed attempt i; if the first i attempts fail and
attempt i succeeds (i within bounds) the result is that success after
exactly i + 1 invocations; and if every attempt fails the final failure is
re-raised after exactly maxRetries + 1 invocations. -/
theorem c3_retry_request (E A : Type) (fn : Nat → Except E A) (maxRetries : Nat) :
    (retryRequest fn maxRetries).invocations ≤ maxRetries + 1 ∧
    (retryRequest fn maxRetries).delays =
      (List.range ((retryRequest fn maxRetries).invocations - 1)).map
        (fun i => 2 ^ i * 1000) ∧
    (∀ i a, i ≤ maxRetries → (∀ j, j < i → ∃ e, fn j = .error e) →
      fn i = .ok a →
      (retryRequest fn maxRetries).result = .ok a ∧
      (retryRequest fn maxRetries).invocations = i + 1) ∧
    (∀ err : Nat → E, (∀ j, j ≤ maxRetries → fn j = .error (err j)) →
      (retryRequest fn maxRetries).result = .error (err maxRetries) ∧
      (retryRequest fn maxRetries).invocations = maxRetries + 1) := by
  refine ⟨retryGo_invocations_le fn 0 maxRetries, ?_, ?_, ?_⟩
  · have := retryGo_delays fn 0 maxRetries
    simpa [retryRequest] using this
  · intro i a hle hfail hok
    exact retryGo_first_success fn i a 0 maxRetries hle
      (fun j hj => by simpa using hfail j hj) (by simpa using hok)
  · intro err hfail
    have := retryGo_all_fail fn err maxRetries 0
      (fun j hj => by simpa using hfail j hj)
    simpa [retryRequest] using this

/-- C3 witness: with a first failing attempt and a succeeding second
attempt, retryRequest with three allowed retries returns the success after
two invocations, having waited exactly the single 1000 ms backoff delay. -/
theorem c3_retry_request_witness :
    (retryRequest retryDemoFn 3).result = .ok 7 ∧
    (retryRequest retryDemoFn 3).invocations = 1 + 1 :=
  (c3_retry_request String Nat retryDemoFn 3).2.2.1 1 7 (by omega)
    (fun j hj => ⟨"boom", by
      have hj0 : j = 0 := by omega
      subst hj0
      rfl⟩)
    rfl

section StartLemmas

theorem start_when_present (svc : SubtitleService) (tabId : Nat) (env : StartEnv)
    (h : (mapFind svc.activeSessions tabId).isSome = true) :
    svc.startAudioCapture tabId env = ⟨svc, .failure alreadyCapturingMsg, false⟩ := by
  unfold SubtitleService.startAudioCapture
  simp [h]

theorem runStarts_const (svc : SubtitleService) (tabId : Nat) (envs : List StartEnv)
    (h : (mapFind svc.activeSessions tabId).isSome = true) :
    runStarts svc tabId envs =
      envs.map (fun _ => ⟨svc, .failure alreadyCapturingMsg, false⟩) := by
  induction envs with
  | nil => rfl
  | cons env rest ih =>
    unfold runStarts
    rw [start_when_present svc tabId env h]
    simp only [List.map_cons]
    exact congrArg _ (ih)

theorem start_success_mem (svc : SubtitleService) (tabId : Nat) (env : StartEnv)
    (h : (svc.startAudioCapture tabId env).response.isSuccess = true) :
    (mapFind (svc.startAudioCapture tabId env).service.activeSessions tabId).isSome = true := by
  unfold SubtitleService.startAudioCapture at h ⊢
  cases hstream : env.stream with
  | none =>
    split_ifs at h <;> simp [CaptureResponse.isSuccess, hstream] at h
  | some sid =>
    split_ifs at h ⊢ with h₁ h₂
    · simp [CaptureResponse.isSuccess] at h
    · simp [CaptureResponse.isSuccess] at h
    · simp [mapFind_mapSet_self]

theorem runStarts_length (svc : SubtitleService) (tabId : Nat)
    (envs : List StartEnv) :
    (runStarts svc tabId envs).length = envs.length := by
  induction envs generalizing svc with
  | nil => rfl
  | cons env rest ih =>
    unfold runStarts
    simp [ih]

end StartLemmas

/-- C4 counterexample: when the first startCapture call fails its health
probe, a later call on the same key with no intervening stopCapture can
succeed, refuting that only the first call can succeed and that every
subsequent call fails with AlreadyCapturing. -/
theorem c4_only_first_cex :
    (runStarts (⟨[]⟩ : SubtitleService) 0
      [⟨false, some 1, 0⟩, ⟨true, some 1, 0⟩]).map (fun r => r.response) =
      [.failure backendUnavailableMsg, .success 1] := by
  rfl

/-- C4 (amended): in any sequence of startCapture calls on the same source
key with no intervening stopCapture, every call after a successful call
fails with AlreadyCapturing, acquires no capture stream, and leaves the
session table exactly as the successful call left it (so no new session is
created); hence at most one call in the sequence succeeds. -/
theorem c4_after_success (svc : SubtitleService) (tabId : Nat)
    (envs : List StartEnv) (i j : Nat) (hij : i < j) (hj : j < envs.length)
    (hi : ((runStarts svc tabId envs).get? i).map (fun r => r.response.isSuccess) =
      some true) :
    (runStarts svc tabId envs).get? j =
      ((runStarts svc tabId envs).get? i).map
        (fun r => ⟨r.service, .failure alreadyCapturingMsg, false⟩) := by
  induction envs generalizing svc i j with
  | nil => simp [runStarts] at hi
  | cons env rest ih =>
    cases i with
    | zero =>
      obtain ⟨j₂, rfl⟩ : ∃ j₂, j = j₂ + 1 := ⟨j - 1, by omega⟩
      unfold runStarts at hi ⊢
      simp only [List.get?_cons_zero, Option.map_some] at hi ⊢
      have hsucc : (svc.startAudioCapture tabId env).response.isSuccess = true := by
        simpa using hi
      have hmem := start_success_mem svc tabId env hsucc
      simp only [List.get?_cons_succ]
      rw [runStarts_const _ tabId rest hmem]
      have hj₂ : j₂ < rest.length := by
        simp only [List.length_cons] at hj
        omega
      rw [List.get?_map]
      rw [(List.get?_eq_get hj₂ : rest.get? j₂ = _)]
      rfl
    | succ i₂ =>
      obtain ⟨j₂, rfl⟩ : ∃ j₂, j = j₂ + 1 := ⟨j - 1, by omega⟩
      unfold runStarts at hi ⊢
      simp only [List.get?_cons_succ] at hi ⊢
      exact ih _ i₂ j₂ (by omega) (by simp only [List.length_cons] at hj; omega) hi

/-- C4 witness: after a successful first call, the second call in the
sequence fails with AlreadyCapturing, acquires no stream, and leaves the
session table as the first call left it. -/
theorem c4_after_success_witness :
    (runStarts (⟨[]⟩ : SubtitleService) 0
        [⟨true, some 1, 0⟩, ⟨true, some 2, 5⟩]).get? 1 =
      ((runStarts (⟨[]⟩ : SubtitleService) 0
        [⟨true, some 1, 0⟩, ⟨true, some 2, 5⟩]).get? 0).map
        (fun r => ⟨r.service, .failure alreadyCapturingMsg, false⟩) :=
  c4_after_success (⟨[]⟩ : SubtitleService) 0
    [⟨true, some 1, 0⟩, ⟨true, some 2, 5⟩] 0 1
    (by omega) (by decide) rfl

/-- C6 counterexample: with source language auto and target language en,
the real-time loop dispatches to the translate-audio-to-language path, not
the transcribe-only path claimed. -/
theorem c6_dispatch_path_cex :
    (processAudioChunkRealTime (⟨some "auto", some "en"⟩ : StoredSettings)
      (fun _ => (Except.ok ⟨"hello", some "en"⟩ : Except String WhisperResponse))).dispatched =
      some DispatchPath.translateAudio ∧
    some DispatchPath.translateAudio ≠ some DispatchPath.transcribe := by
  exact ⟨rfl, by decide⟩

/-- C6 (amended): in a session whose settings snapshot has source language
auto and target language en, a gated chunk that passes the speech gate is
dispatched to the translate-audio-to-language backend path, and recognized
text that is non-empty after trimming is forwarded to the display sink with
the detected language, or with the source language auto when none was
detected. -/
theorem c6_auto_to_en (session : ActiveSession) (chunk : Chunk) (now : Nat)
    (text : String) (detected : Option String)
    (hproc : session.isProcessing = false)
    (htime : PROCESSING_INTERVAL ≤ now - session.lastProcessedTime)
    (hspeech : detectSpeech session.hasAudioContext chunk.decoded = true)
    (htext : text ≠ "" ∧ jsTrim text ≠ "") :
    (handleAudioChunk session chunk now (⟨some "auto", some "en"⟩ : StoredSettings)
        (fun _ => (Except.ok ⟨text, detected⟩ : Except String WhisperResponse))).dispatched =
      some DispatchPath.translateAudio ∧
    (handleAudioChunk session chunk now (⟨some "auto", some "en"⟩ : StoredSettings)
        (fun _ => (Except.ok ⟨text, detected⟩ : Except String WhisperResponse))).sinkMessages =
      [.displaySubtitle text (jsOr detected "auto")] := by
  unfold handleAudioChunk
  rw [if_neg (by simp [hproc]), if_neg (by omega)]
  have hgate : ¬ detectSpeech session.hasAudioContext chunk.decoded = false := by
    simp [hspeech]
  rw [if_neg hgate]
  unfold processAudioChunkRealTime chooseDispatchPath
  simp [jsOr, htext.1, htext.2]

/-- C6 witness: the spec scenario with source auto, target en, a chunk of
amplitude one half, and recognized text hello detected as en: the chunk is
dispatched on the translate-audio path and hello is forwarded with
language en. -/
theorem c6_auto_to_en_witness :
    (handleAudioChunk (⟨false, 0, AudioChunkBuffer.new Chunk 5, true⟩ : ActiveSession)
        (⟨2000, some [1 / 2]⟩ : Chunk) 500 (⟨some "auto", some "en"⟩ : StoredSettings)
        (fun _ => (Except.ok ⟨"hello", some "en"⟩ : Except String WhisperResponse))).dispatched =
      some DispatchPath.translateAudio ∧
    (handleAudioChunk (⟨false, 0, AudioChunkBuffer.new Chunk 5, true⟩ : ActiveSession)
        (⟨2000, some [1 / 2]⟩ : Chunk) 500 (⟨some "auto", some "en"⟩ : StoredSettings)
        (fun _ => (Except.ok ⟨"hello", some "en"⟩ : Except String WhisperResponse))).sinkMessages =
      [.displaySubtitle "hello" (jsOr (some "en") "auto")] :=
  c6_auto_to_en (⟨false, 0, AudioChunkBuffer.new Chunk 5, true⟩ : ActiveSession)
    (⟨2000, some [1 / 2]⟩ : Chunk) 500 "hello" (some "en") rfl (by decide)
    (by norm_num [detectSpeech, meanAmplitude, SILENCE_THRESHOLD, abs_of_nonneg])
    (by decide)

/-- C8: every error raised during per-chunk backend dispatch in the
real-time loop, including the request timeout (default 15000 ms), is
swallowed: no message reaches the display sink, no error escapes the chunk
handler, the processing flag is cleared afterwards, and a subsequent chunk
arriving after the processing interval is processed normally (it is
appended to the buffer and reaches the gate). -/
theorem c8_errors_swallowed (E E₂ : Type) (session : ActiveSession)
    (chunk chunk₂ : Chunk) (now now₂ : Nat)
    (settings settings₂ : StoredSettings) (e : E)
    (backend₂ : DispatchPath → Except E₂ WhisperResponse)
    (hproc : session.isProcessing = false)
    (htime : PROCESSING_INTERVAL ≤ now - session.lastProcessedTime)
    (hspeech : detectSpeech session.hasAudioContext chunk.decoded = true)
    (htime₂ : PROCESSING_INTERVAL ≤ now₂ - now) :
    (handleAudioChunk session chunk now settings (fun _ => Except.error e)).raisedError = false ∧
    (handleAudioChunk session chunk now settings (fun _ => Except.error e)).sinkMessages = [] ∧
    (handleAudioChunk session chunk now settings (fun _ => Except.error e)).dispatched.isSome = true ∧
    (handleAudioChunk session chunk now settings (fun _ => Except.error e)).session.isProcessing = false ∧
    (handleAudioChunk
        (handleAudioChunk session chunk now settings (fun _ => Except.error e)).session
        chunk₂ now₂ settings₂ backend₂).session.audioBuffer =
      ((handleAudioChunk session chunk now settings (fun _ => Except.error e)).session.audioBuffer.addChunk
        chunk₂) ∧
    defaultRequestTimeout = 15000 := by
  have hr : handleAudioChunk session chunk now settings (fun _ => Except.error e) =
      ⟨⟨false, now, session.audioBuffer.addChunk chunk, session.hasAudioContext⟩,
        some (chooseDispatchPath (jsOr settings.sourceLanguage "auto")
          (jsOr settings.targetLanguage "en")), [], false⟩ := by
    unfold handleAudioChunk
    rw [if_neg (by simp [hproc]), if_neg (by omega)]
    rw [if_neg (by simp [hspeech])]
    rfl
  rw [hr]
  refine ⟨rfl, rfl, rfl, rfl, ?_, rfl⟩
  unfold handleAudioChunk
  rw [if_neg (by simp)]
  rw [if_neg (Nat.not_lt.mpr htime₂)]
  split
  · rfl
  · rfl

/-- C8 witness: a concrete session whose backend call fails (as a timeout
does) sends nothing to the sink, raises nothing, clears the flag, and the
next chunk 500 ms later is appended to the buffer. -/
theorem c8_errors_swallowed_witness :
    (handleAudioChunk (⟨false, 0, AudioChunkBuffer.new Chunk 5, true⟩ : ActiveSession)
      (⟨2000, some [1 / 2]⟩ : Chunk) 500 (⟨some "auto", some "en"⟩ : StoredSettings)
      (fun _ => (Except.error "Request timeout" : Except String WhisperResponse))).raisedError = false ∧
    (handleAudioChunk (⟨false, 0, AudioChunkBuffer.new Chunk 5, true⟩ : ActiveSession)
      (⟨2000, some [1 / 2]⟩ : Chunk) 500 (⟨some "auto", some "en"⟩ : StoredSettings)
      (fun _ => (Except.error "Request timeout" : Except String WhisperResponse))).sinkMessages = [] :=
  ⟨(c8_errors_swallowed String String
      (⟨false, 0, AudioChunkBuffer.new Chunk 5, true⟩ : ActiveSession)
      (⟨2000, some [1 / 2]⟩ : Chunk) (⟨2000, some [1 / 2]⟩ : Chunk) 500 1000
      (⟨some "auto", some "en"⟩ : StoredSettings) (⟨some "auto", some "en"⟩ : StoredSettings)
      "Request timeout" (fun _ => (Except.error "x" : Except String WhisperResponse))
      rfl (by decide)
      (by norm_num [detectSpeech, meanAmplitude, SILENCE_THRESHOLD, abs_of_nonneg])
      (by decide)).1,
   (c8_errors_swallowed String String
      (⟨false, 0, AudioChunkBuffer.new Chunk 5, true⟩ : ActiveSession)
      (⟨2000, some [1 / 2]⟩ : Chunk) (⟨2000, some [1 / 2]⟩ : Chunk) 500 1000
      (⟨some "auto", some "en"⟩ : StoredSettings) (⟨some "auto", some "en"⟩ : StoredSettings)
      "Request timeout" (fun _ => (Except.error "x" : Except String WhisperResponse))
      rfl (by decide)
      (by norm_num [detectSpeech, meanAmplitude, SILENCE_THRESHOLD, abs_of_nonneg])
      (by decide)).2.1⟩

/-- C7 counterexample: two distinct 101-character request bodies that agree
on their first 100 characters are assigned the same dedup key for the same
method and endpoint, so two genuinely different requests collide. -/
theorem c7_dedup_key_collision_cex :
    longBodyA ≠ longBodyB ∧
    requestKey "POST" "http://localhost:8001/translate_text" (some longBodyA) =
      requestKey "POST" "http://localhost:8001/translate_text" (some longBodyB) := by
  constructor
  · decide
  · decide

/-- C7 (amended): for two calls sharing a method and endpoint, the dedup
keys coincide exactly when the first 100 characters of the string forms of
their bodies coincide: calls differing within that bounded body prefix get
distinct keys, while calls differing only beyond the first 100 characters
of the body string form (as the counterexample shows) share a key. -/
theorem c7_dedup_key_bounded (m u b₁ b₂ : String) :
    requestKey m u (some b₁) = requestKey m u (some b₂) ↔
      b₁.data.take 100 = b₂.data.take 100 := by
  unfold requestKey
  rw [String.ext_iff]
  simp only [String.data_append]
  constructor
  · intro h
    exact List.append_cancel_left h
  · intro h
    rw [h]

/-- C7 witness: bodies differing at index 0 produce distinct keys. -/
theorem c7_dedup_key_bounded_witness :
    requestKey "POST" "u" (some "abc") = requestKey "POST" "u" (some "xbc") ↔
      ("abc" : String).data.take 100 = ("xbc" : String).data.take 100 :=
  c7_dedup_key_bounded "POST" "u" "abc" "xbc"

section CoordinatorLemmas

theorem coordInv_empty : CoordInv emptyCoordinator := by
  refine ⟨?_, ?_, ?_, ?_⟩
  · intro key pid
    simp [Coordinator.outstanding, emptyCoordinator, mapFind]
  · intro key pid h
    simp [emptyCoordinator] at h
  · intro pid h
    simp [emptyCoordinator] at h
  · intro k₁ k₂ pid h₁ h₂
    simp [emptyCoordinator, mapFind] at h₁

theorem coordInv_arrive_new (c : Coordinator) (k : String)
    (hq : mapFind c.requestQueue k = none) (h : CoordInv c) :
    CoordInv ⟨mapSet c.requestQueue k c.nextPromise, c.nextPromise + 1,
      c.issued ++ [(k, c.nextPromise)], c.settled⟩ := by
  obtain ⟨h₁, h₂, h₃, h₄⟩ := h
  refine ⟨?_, ?_, ?_, ?_⟩
  · intro key pid
    unfold Coordinator.outstanding
    simp only [List.mem_append, List.mem_singleton]
    by_cases hk : key = k
    · subst hk
      rw [mapFind_mapSet_self]
      constructor
      · rintro ⟨hmem | hmem, hns⟩
        · have hfind := (h₁ key pid).mp ⟨hmem, hns⟩
          rw [hq] at hfind
          exact Option.noConfusion hfind
        · rw [Prod.mk.injEq] at hmem
          rw [hmem.2]
      · intro hsome
        have hpid : pid = c.nextPromise := by
          injection hsome with hh
          exact hh.symm
        subst hpid
        refine ⟨Or.inr rfl, fun hmem => ?_⟩
        exact absurd (h₃ _ hmem) (lt_irrefl _)
    · rw [mapFind_mapSet_ne _ _ _ _ hk]
      constructor
      · rintro ⟨hmem | hmem, hns⟩
        · exact (h₁ key pid).mp ⟨hmem, hns⟩
        · rw [Prod.mk.injEq] at hmem
          exact absurd hmem.1 hk
      · intro hsome
        have hout := (h₁ key pid).mpr hsome
        exact ⟨Or.inl hout.1, hout.2⟩
  · intro key pid hmem
    rcases List.mem_append.mp hmem with hmem | hmem
    · exact (h₂ key pid hmem).trans (Nat.lt_succ_self _)
    · simp only [List.mem_singleton, Prod.mk.injEq] at hmem
      rw [hmem.2]
      exact Nat.lt_succ_self _
  · intro pid hmem
    exact (h₃ pid hmem).trans (Nat.lt_succ_self _)
  · intro k₁ k₂ pid hf₁ hf₂
    by_cases hk₁ : k₁ = k
    · by_cases hk₂ : k₂ = k
      · rw [hk₁, hk₂]
      · subst hk₁
        rw [mapFind_mapSet_self] at hf₁
        rw [mapFind_mapSet_ne _ _ _ _ hk₂] at hf₂
        injection hf₁ with hf₁
        rw [← hf₁] at hf₂
        have hout := (h₁ k₂ c.nextPromise).mpr hf₂
        exact absurd (h₂ _ _ hout.1) (lt_irrefl _)
    · by_cases hk₂ : k₂ = k
      · subst hk₂
        rw [mapFind_mapSet_self] at hf₂
        rw [mapFind_mapSet_ne _ _ _ _ hk₁] at hf₁
        injection hf₂ with hf₂
        rw [← hf₂] at hf₁
        have hout := (h₁ k₁ c.nextPromise).mpr hf₁
        exact absurd (h₂ _ _ hout.1) (lt_irrefl _)
      · rw [mapFind_mapSet_ne _ _ _ _ hk₁] at hf₁
        rw [mapFind_mapSet_ne _ _ _ _ hk₂] at hf₂
        exact h₄ k₁ k₂ pid hf₁ hf₂

theorem coordInv_settle_new (c : Coordinator) (k : String) (pid₀ : Nat)
    (outcome : Bool) (hq : mapFind c.requestQueue k = some pid₀)
    (h : CoordInv c) :
    CoordInv ⟨mapDelete c.requestQueue k, c.nextPromise, c.issued,
      c.settled ++ [(pid₀, outcome)]⟩ := by
  obtain ⟨h₁, h₂, h₃, h₄⟩ := h
  have hout₀ := (h₁ k pid₀).mpr hq
  refine ⟨?_, ?_, ?_, ?_⟩
  · intro key pid
    unfold Coordinator.outstanding
    simp only [List.map_append, List.map_cons, List.map_nil, List.mem_append,
      List.mem_singleton]
    by_cases hk : key = k
    · subst hk
      rw [mapFind_mapDelete_self]
      constructor
      · rintro ⟨hmem, hns⟩
        have hpid : pid ≠ pid₀ := fun hh => hns (Or.inr hh)
        have hold : mapFind c.requestQueue key = some pid :=
          (h₁ key pid).mp ⟨hmem, fun hh => hns (Or.inl hh)⟩
        rw [hq] at hold
        injection hold with hold
        exact absurd hold.symm hpid
      · intro hsome
        exact Option.noConfusion hsome
    · rw [mapFind_mapDelete_ne _ _ _ hk]
      constructor
      · rintro ⟨hmem, hns⟩
        exact (h₁ key pid).mp ⟨hmem, fun hh => hns (Or.inl hh)⟩
      · intro hsome
        have hold := (h₁ key pid).mpr hsome
        refine ⟨hold.1, fun hh => ?_⟩
        rcases hh with hh | hh
        · exact hold.2 hh
        · rw [hh] at hsome
          exact hk (h₄ key k pid₀ hsome hq)
  · exact h₂
  · intro pid hmem
    simp only [List.map_append, List.map_cons, List.map_nil, List.mem_append,
      List.mem_singleton] at hmem
    rcases hmem with hmem | hmem
    · exact h₃ pid hmem
    · rw [hmem]
      exact h₂ k pid₀ hout₀.1
  · intro k₁ k₂ pid hf₁ hf₂
    by_cases hk₁ : k₁ = k
    · subst hk₁
      rw [mapFind_mapDelete_self] at hf₁
      exact Option.noConfusion hf₁
    · by_cases hk₂ : k₂ = k
      · subst hk₂
        rw [mapFind_mapDelete_self] at hf₂
        exact Option.noConfusion hf₂
      · rw [mapFind_mapDelete_ne _ _ _ hk₁] at hf₁
        rw [mapFind_mapDelete_ne _ _ _ hk₂] at hf₂
        exact h₄ k₁ k₂ pid hf₁ hf₂

theorem coordInv_step (c : Coordinator) (e : CoordEvent) (h : CoordInv c) :
    CoordInv (c.step e) := by
  cases e with
  | arrive k =>
    show CoordInv (c.arrive k).coord
    unfold Coordinator.arrive
    cases hq : mapFind c.requestQueue k with
    | some pid => exact h
    | none => exact coordInv_arrive_new c k hq h
  | settle k outcome =>
    show CoordInv (c.settle k outcome)
    unfold Coordinator.settle
    cases hq : mapFind c.requestQueue k with
    | some pid => exact coordInv_settle_new c k pid outcome hq h
    | none => exact h

theorem demoCoord_inv : CoordInv demoCoord := by
  refine ⟨?_, ?_, ?_, ?_⟩
  · intro key pid
    by_cases hk : key = "k"
    · subst hk
      simp [demoCoord, Coordinator.outstanding, mapFind]
      omega
    · simp [demoCoord, Coordinator.outstanding, mapFind, hk]
  · intro key pid hmem
    simp only [demoCoord, List.mem_singleton, Prod.mk.injEq] at hmem
    rw [hmem.2]
    decide
  · intro pid hmem
    simp [demoCoord] at hmem
  · intro k₁ k₂ pid hf₁ hf₂
    by_cases h₁ : k₁ = "k"
    · by_cases h₂ : k₂ = "k"
      · rw [h₁, h₂]
      · simp [demoCoord, mapFind, h₂] at hf₂
    · simp [demoCoord, mapFind, h₁] at hf₁

end CoordinatorLemmas

/-- C1: the pending-request table satisfies the dedup discipline: the
coordinator invariant holds initially and is preserved by every event; for
any dedup key at most one network call is outstanding at a time; a caller
arriving while the key is pending is handed the very promise of the
original caller (hence the same eventual settled result) with no new
network call and no state change; and settling the key, with either
outcome, removes the table entry, so the next arrival with the same key
issues a fresh network call rather than being suppressed. -/
theorem c1_pending_table (c : Coordinator) (e : CoordEvent) (k : String)
    (pid pid₁ pid₂ : Nat) (outcome : Bool)
    (hinv : CoordInv c)
    (hpend : mapFind c.requestQueue k = some pid)
    (h₁ : c.outstanding k pid₁) (h₂ : c.outstanding k pid₂) :
    CoordInv emptyCoordinator ∧
    CoordInv (c.step e) ∧
    pid₁ = pid₂ ∧
    (c.arrive k).promiseId = pid ∧
    (c.arrive k).coord = c ∧
    (c.arrive k).issuedCall = false ∧
    mapFind (c.settle k outcome).requestQueue k = none ∧
    ((c.settle k outcome).arrive k).issuedCall = true ∧
    ((c.settle k outcome).arrive k).promiseId ≠ pid := by
  obtain ⟨i₁, i₂, i₃, i₄⟩ := hinv
  have harr : c.arrive k = ⟨c, pid, false⟩ := by
    unfold Coordinator.arrive
    rw [hpend]
  have hset : c.settle k outcome = ⟨mapDelete c.requestQueue k, c.nextPromise,
      c.issued, c.settled ++ [(pid, outcome)]⟩ := by
    unfold Coordinator.settle
    rw [hpend]
  refine ⟨coordInv_empty, coordInv_step c e ⟨i₁, i₂, i₃, i₄⟩, ?_, ?_, ?_, ?_,
    ?_, ?_, ?_⟩
  · have e₁ := (i₁ k pid₁).mp h₁
    have e₂ := (i₁ k pid₂).mp h₂
    rw [e₁] at e₂
    injection e₂ with e₂
  · rw [harr]
  · rw [harr]
  · rw [harr]
  · rw [hset]
    exact mapFind_mapDelete_self c.requestQueue k
  · rw [hset]
    simp [Coordinator.arrive, mapFind_mapDelete_self]
  · rw [hset]
    simp only [Coordinator.arrive, mapFind_mapDelete_self]
    have hlt : pid < c.nextPromise := i₂ k pid ((i₁ k pid).mpr hpend).1
    omega

/-- C1 witness: with one pending call for key k in the concrete state
demoCoord, settling it and arriving again issues a fresh network call. -/
theorem c1_pending_table_witness :
    ((demoCoord.settle "k" true).arrive "k").issuedCall = true :=
  (c1_pending_table demoCoord (.arrive "q") "k" 0 0 0 true demoCoord_inv
    (by decide)
    (by exact ⟨by simp [demoCoord], by simp [demoCoord]⟩)
    (by exact ⟨by simp [demoCoord], by simp [demoCoord]⟩)).2.2.2.2.2.2.2.1

end SubtitleExt
